import Mathlib

/-!
Shallow embedding of the SGBC_shellFiles scripts (ranker.py, rename.py,
ants_register.py).  Python strings are modeled as lists of characters,
and Python float arithmetic is modeled exactly by rational numbers.
NumPy square roots are abstracted by an explicit function argument; the
development only uses that the square root of zero is zero.
-/

namespace SGBC

/-- Fetal orientation labels used by ranker.py; `determine_fetal_orientation`
returns one of these (the driver uppercases them for folder names). -/
inductive Orientation
  | axial
  | sagittal
  | coronal
  | unknown
  deriving DecidableEq, Fintype, Repr

/-- Quality classes returned by `get_quality_class` in ranker.py. -/
inductive Quality
  | EXCELLENT
  | GOOD
  | FAIR
  | POOR
  deriving DecidableEq, Fintype, Repr

/-- The feature dictionary built by `analyze_symmetry` plus
`detect_anatomical_features` (ranker.py lines 69-144).  Both functions
always populate every key when a brain region exists, so the combined
dictionary is modeled as a structure. -/
structure FeatureSet where
  horizontal_symmetry : ℚ
  vertical_symmetry : ℚ
  aspect_ratio : ℚ
  dominant_line_angle : ℚ
  line_count : ℕ
  intensity_std : ℚ
  intensity_skewness : ℚ
  deriving DecidableEq, Repr

/-- Axial score accumulation, ranker.py lines 179-185. -/
def axialScore (f : FeatureSet) : ℚ :=
  (if f.horizontal_symmetry > 0.5 then 3.0 else 0)
    + (if 0.8 ≤ f.aspect_ratio ∧ f.aspect_ratio ≤ 1.3 then 2.0 else 0)
    + (if f.intensity_std > 20 then 1.0 else 0)

/-- Sagittal score accumulation, ranker.py lines 187-193. -/
def sagittalScore (f : FeatureSet) : ℚ :=
  (if f.vertical_symmetry < 0.3 then 2.0 else 0)
    + (if 0.6 ≤ f.aspect_ratio ∧ f.aspect_ratio ≤ 1.0 then 2.0 else 0)
    + (if |f.dominant_line_angle - 90| < 20 then 2.0 else 0)

/-- Coronal score accumulation, ranker.py lines 195-201. -/
def coronalScore (f : FeatureSet) : ℚ :=
  (if f.vertical_symmetry > 0.4 then 2.0 else 0)
    + (if 0.9 ≤ f.aspect_ratio ∧ f.aspect_ratio ≤ 1.4 then 1.5 else 0)
    + (if f.horizontal_symmetry > 0.3 then 1.5 else 0)

/-- `determine_fetal_orientation` (ranker.py lines 155-208).  The input is
the outcome of brain-region extraction and feature computation: `none`
models `detect_brain_region` returning `(None, None)`.  Python's
`max(scores, key=scores.get)` iterates the dict in insertion order
(axial, sagittal, coronal) and replaces the current best only on a
strictly greater score; the fold below reproduces that exactly. -/
def determine_fetal_orientation (inp : Option FeatureSet) :
    Orientation × ℚ × Option FeatureSet :=
  match inp with
  | none => (Orientation.unknown, 0, none)
  | some f =>
    let a := axialScore f
    let s := sagittalScore f
    let c := coronalScore f
    let step1 : Orientation × ℚ := if a < s then (Orientation.sagittal, s) else (Orientation.axial, a)
    let best : Orientation × ℚ := if step1.2 < c then (Orientation.coronal, c) else step1
    (best.1, min (best.2 / 5) 1, some f)

/-- Python `int()` applied to a real value: truncation toward zero.
For nonnegative values this is the floor; for negative values it is
`-⌊-q⌋` (which equals the ceiling). -/
def pyInt (q : ℚ) : ℤ :=
  if 0 ≤ q then ⌊q⌋ else -⌊-q⌋

/-- One row of the `quality_thresholds` table (ranker.py lines 215-248). -/
structure ThresholdRow where
  excellent : ℤ
  good : ℤ
  fair : ℤ
  blur_weight : ℚ
  contrast_weight : ℚ
  symmetry_weight : ℚ
  deriving DecidableEq, Repr

/-- The `quality_thresholds` dictionary of `FetalBrainQualityAssessor`
(ranker.py lines 215-248), indexed by orientation. -/
def quality_thresholds : Orientation → ThresholdRow
  | Orientation.axial => ⟨75, 60, 40, 0.3, 0.25, 0.2⟩
  | Orientation.sagittal => ⟨70, 55, 35, 0.35, 0.2, 0.15⟩
  | Orientation.coronal => ⟨72, 58, 38, 0.25, 0.3, 0.25⟩
  | Orientation.unknown => ⟨65, 50, 30, 0.4, 0.3, 0.1⟩

/-- The metrics dictionary consumed by `calculate_composite_score`.
Every read in that function uses `metrics.get(key, 0)`, so an arbitrary
Python dict is faithfully represented by a total record of the nine keys
that are ever read, with absent keys standing at the default 0. -/
structure Metrics where
  sharpness_score : ℚ := 0
  contrast : ℚ := 0
  snr : ℚ := 0
  bilateral_symmetry : ℚ := 0
  shape_regularity : ℚ := 0
  midline_clarity : ℚ := 0
  ap_structures : ℚ := 0
  bilateral_balance : ℚ := 0
  vertical_organization : ℚ := 0
  deriving DecidableEq, Repr

/-- `calculate_composite_score` (ranker.py lines 308-345).  The
`if/elif` chain over the orientation string becomes a `match`; the final
`int(min(final_score, 100))` becomes `pyInt (min final_score 100)`. -/
def calculate_composite_score (metrics : Metrics) (orientation : Orientation) : ℤ :=
  let thresholds := quality_thresholds orientation
  let sharpness_norm := min (metrics.sharpness_score / 150) 1.0
  let contrast_norm := min (metrics.contrast / 60) 1.0
  let snr_norm := min (metrics.snr / 10) 1.0
  let base_score :=
    thresholds.blur_weight * sharpness_norm
      + thresholds.contrast_weight * contrast_norm
      + (1 - thresholds.blur_weight - thresholds.contrast_weight - thresholds.symmetry_weight)
          * snr_norm
  let orientation_bonus : ℚ :=
    match orientation with
    | Orientation.axial =>
        thresholds.symmetry_weight
          * (metrics.bilateral_symmetry * 0.6 + metrics.shape_regularity * 0.4)
    | Orientation.sagittal =>
        thresholds.symmetry_weight
          * (metrics.midline_clarity * 0.7 + min metrics.ap_structures 1.0 * 0.3)
    | Orientation.coronal =>
        thresholds.symmetry_weight
          * (metrics.bilateral_balance * 0.5 + metrics.vertical_organization * 0.5)
    | Orientation.unknown => 0
  let final_score := (base_score + orientation_bonus) * 100
  pyInt (min final_score 100)

/-- `get_quality_class` (ranker.py lines 347-358). -/
def get_quality_class (score : ℤ) (orientation : Orientation) : Quality :=
  let thresholds := quality_thresholds orientation
  if score ≥ thresholds.excellent then Quality.EXCELLENT
  else if score ≥ thresholds.good then Quality.GOOD
  else if score ≥ thresholds.fair then Quality.FAIR
  else Quality.POOR

/-- Split a character list at the first occurrence of `sep`:
`some (before, after)` when `sep` occurs, `none` otherwise. -/
def splitOnceChar (sep : Char) : List Char → Option (List Char × List Char)
  | [] => none
  | c :: cs =>
    if c = sep then some ([], cs)
    else
      match splitOnceChar sep cs with
      | some (a, b) => some (c :: a, b)
      | none => none

/-- Python `s.split(sep, 2)` for a one-character separator: at most two
splits, the remainder keeps any further separators (rename.py line 15). -/
def pySplit2 (sep : Char) (s : List Char) : List (List Char) :=
  match splitOnceChar sep s with
  | none => [s]
  | some (a, r) =>
    match splitOnceChar sep r with
    | none => [a, r]
    | some (b, r2) => [a, b, r2]

/-- Python `s.split(sep)` (no limit) for a one-character separator,
as used by the prefix-cleaning block in ranker.py line 515. -/
def pySplitAll (sep : Char) : List Char → List (List Char)
  | [] => [[]]
  | c :: cs =>
    let r := pySplitAll sep cs
    if c = sep then [] :: r
    else
      match r with
      | [] => [[c]]
      | p :: ps => (c :: p) :: ps

/-- Python `s.isdigit()` restricted to ASCII decimal digits: nonempty
and all characters are digits. -/
def isdigitL (s : List Char) : Bool :=
  !s.isEmpty && s.all Char.isDigit

/-- `a.startswith(p)` on character lists. -/
def leadsWith (p s : List Char) : Bool :=
  s.take p.length == p

/-- `a.endswith(p)` on character lists. -/
def trailsWith (p s : List Char) : Bool :=
  s.drop (s.length - p.length) == p

/-- Python `p in s` (substring containment) on character lists. -/
def containsL (p s : List Char) : Bool :=
  (List.range (s.length + 1)).any fun i => leadsWith p (s.drop i)

/-- Decimal digit characters of `n`, most significant first; empty for 0.
The fuel argument bounds the recursion (`n` itself always suffices). -/
def digitsRevAux : ℕ → ℕ → List ℕ
  | 0, _ => []
  | fuel + 1, n => if n = 0 then [] else n % 10 :: digitsRevAux fuel (n / 10)

/-- Decimal rendering of a natural number, empty for 0. -/
def digitsOf (n : ℕ) : List Char :=
  ((digitsRevAux n n).map Nat.digitChar).reverse

/-- Python `f-string` formatting `{n:02d}` for a natural number:
decimal digits left-padded with zeros to width 2. -/
def pad2 (n : ℕ) : List Char :=
  let ds := digitsOf n
  if ds.length < 2 then List.replicate (2 - ds.length) '0' ++ ds else ds

/-- Python `f-string` formatting `{z:02d}` for an integer: for negative
values the sign plus digits already reach the field width. -/
def formatInt02 (z : ℤ) : List Char :=
  if 0 ≤ z then pad2 z.toNat else '-' :: digitsOf z.natAbs

/-- Rendering of a quality class exactly as ranker.py returns it. -/
def qualityChars : Quality → List Char
  | Quality.EXCELLENT => "EXCELLENT".toList
  | Quality.GOOD => "GOOD".toList
  | Quality.FAIR => "FAIR".toList
  | Quality.POOR => "POOR".toList

/-- Rendering of an orientation as `orientation.upper()` (ranker.py line 400). -/
def orientationChars : Orientation → List Char
  | Orientation.axial => "AXIAL".toList
  | Orientation.sagittal => "SAGITTAL".toList
  | Orientation.coronal => "CORONAL".toList
  | Orientation.unknown => "UNKNOWN".toList

/-- The word list of ranker.py line 523-524 (quality and orientation
words dropped by the cleaning step). -/
def quality_words : List (List Char) :=
  ["EXCELLENT".toList, "GOOD".toList, "FAIR".toList, "POOR".toList,
   "AXIAL".toList, "SAGITTAL".toList, "CORONAL".toList]

/-- The cleaning block of `rename_folders_with_scores_and_orientation`
(ranker.py lines 511-527): when the name starts with one of the seven
marked prefixes, split on every underscore, drop the parts that are all
digits or a quality/orientation word, and rejoin; keep the original name
when nothing remains.  The `skip_next` flag in the source is never set
to `True` and is dead code, so it does not appear here. -/
def clean_existing_marks (original_name : List Char) : List Char :=
  if quality_words.any (fun w => leadsWith (w ++ ['_']) original_name) then
    let parts := pySplitAll '_' original_name
    let clean_parts := parts.filter fun part =>
      !(isdigitL part || quality_words.any (fun w => part == w))
    if clean_parts.isEmpty then original_name else List.intercalate ['_'] clean_parts
  else original_name

/-- The confidence token of ranker.py line 530:
`f"C{int(confidence*100):02d}"` when confidence exceeds 0.5, else `C??`.
The guard makes `int(confidence*100)` nonnegative. -/
def confidence_token (confidence : ℚ) : List Char :=
  if confidence > 0.5 then 'C' :: pad2 (pyInt (confidence * 100)).toNat
  else ['C', '?', '?']

/-- The new folder name of ranker.py line 532:
`f"{best_score:02d}_{quality_class}_{fetal_orientation}_{confidence_str}_{original_name}"`. -/
def new_folder_name (best_score : ℤ) (quality_class : Quality)
    (fetal_orientation : Orientation) (confidence : ℚ)
    (original_name : List Char) : List Char :=
  formatInt02 best_score ++ '_' ::
    (qualityChars quality_class ++ '_' ::
      (orientationChars fetal_orientation ++ '_' ::
        (confidence_token confidence ++ '_' :: original_name)))

/-- The per-name core of `remove_quality_prefix_from_folders`
(rename.py lines 15-20): split on the first two underscores; when
exactly three parts result and the first is numeric, the folder is
renamed to the third part, otherwise it is left untouched. -/
def strip_score_quality (name : List Char) : List Char :=
  match pySplit2 '_' name with
  | [a, _, c] => if isdigitL a then c else name
  | _ => name

/-- The pattern test of rename.py line 18: the name splits into exactly
three parts on the first two underscores and the first part is numeric. -/
def matches3 (name : List Char) : Bool :=
  match pySplit2 '_' name with
  | [a, _, _] => isdigitL a
  | _ => false

/-- Python `max(iterable, key=k)` over a nonempty sequence `x :: xs`:
a left fold that replaces the current best only on a strictly greater
key, hence returning the first element attaining the maximum. -/
def pyMaxBy {α β : Type} [LinearOrder β] (key : α → β) (x : α) (xs : List α) : α :=
  xs.foldl (fun best y => if key best < key y then y else best) x

/-- `np.mean` over a list of rationals (0 on the empty list; the code
only takes means of nonempty lists). -/
def listMean (xs : List ℚ) : ℚ :=
  xs.sum / (xs.length : ℚ)

/-- Population variance `(np.std)**2` over a list of rationals. -/
def listVarP (xs : List ℚ) : ℚ :=
  listMean (xs.map fun x => (x - listMean xs) ^ 2)

/-- Covariance of two equal-length lists, as in the numerator of
`np.corrcoef`. -/
def listCov (xs ys : List ℚ) : ℚ :=
  listMean (List.zipWith (fun a b => (a - listMean xs) * (b - listMean ys)) xs ys)

/-- The single correlation entry `np.corrcoef(xs, ys)[0, 1]`.  The value
is NaN exactly when either argument has zero variance (0/0); NaN is
modeled as `none`.  `sq` abstracts the floating square root used in the
denominator. -/
def pearson (sq : ℚ → ℚ) (xs ys : List ℚ) : Option ℚ :=
  if listVarP xs = 0 ∨ listVarP ys = 0 then none
  else some (listCov xs ys / (sq (listVarP xs) * sq (listVarP ys)))

/-- Column-wise `take` on a row-major image, `img[:, :n]`. -/
def takeCols (n : ℕ) (img : List (List ℚ)) : List (List ℚ) :=
  img.map (List.take n)

/-- Column-wise `drop` on a row-major image, `img[:, n:]`. -/
def dropCols (n : ℕ) (img : List (List ℚ)) : List (List ℚ) :=
  img.map (List.drop n)

/-- `np.fliplr`: reverse every row. -/
def flipCols (img : List (List ℚ)) : List (List ℚ) :=
  img.map List.reverse

/-- `analyze_symmetry` (ranker.py lines 69-104) on a rectangular
row-major brain region.  `np.corrcoef` entries that are NaN are
normalized to 0 by the final dictionary construction (lines 101-104). -/
def analyze_symmetry (sq : ℚ → ℚ) (brain_region : List (List ℚ)) : ℚ × ℚ :=
  let h := brain_region.length
  let w := (brain_region.headD []).length
  let left_half := takeCols (w / 2) brain_region
  let right_half_flipped := flipCols (dropCols (w / 2) brain_region)
  let min_width := min (w / 2) (w - w / 2)
  let lh := takeCols min_width left_half
  let rhf := takeCols min_width right_half_flipped
  let horizontal_symmetry := pearson sq lh.flatten rhf.flatten
  let top_half := brain_region.take (h / 2)
  let bottom_half_flipped := (brain_region.drop (h / 2)).reverse
  let min_height := min (h / 2) (h - h / 2)
  let th := top_half.take min_height
  let bhf := bottom_half_flipped.take min_height
  let vertical_symmetry := pearson sq th.flatten bhf.flatten
  (horizontal_symmetry.getD 0, vertical_symmetry.getD 0)

/-- `calculate_skewness` (ranker.py lines 146-153): 0 when the standard
deviation of the flattened image is zero, otherwise the third
standardized moment.  `sq` abstracts `np.std`'s square root, so
`std = sq (listVarP flat)`. -/
def calculate_skewness (sq : ℚ → ℚ) (image : List (List ℚ)) : ℚ :=
  let flat := image.flatten
  let mean := listMean flat
  let std := sq (listVarP flat)
  if std = 0 then 0
  else listMean (flat.map fun x => ((x - mean) / std) ^ 3)

/-- The per-file record kept in `results` by `analyze_dicom_file`
(ranker.py lines 396-408), restricted to the fields the folder summary
reads. -/
structure FileResult where
  composite_score : ℤ
  quality_class : Quality
  fetal_orientation : Orientation
  orientation_confidence : ℚ
  deriving DecidableEq, Repr

/-- Errors produced by `analyze_patient_folder`; the source carries the
messages "No DICOM files found" and "No valid DICOM files processed". -/
inductive FolderError
  | no_dicom_files
  | no_valid_dicoms
  deriving DecidableEq, Repr

/-- The folder summary built by `analyze_patient_folder` (ranker.py
lines 459-473), restricted to the aggregate fields. -/
structure FolderSummary where
  best : FileResult
  most_common : Option Orientation
  avg_score : ℚ
  deriving DecidableEq, Repr

/-- `max(set(orientations), key=orientations.count)`: `set_order` is the
iteration order of the Python set, which CPython leaves unspecified for
strings (hash-dependent); it is therefore an explicit parameter. -/
def most_common_orientation (orientations : List Orientation)
    (set_order : List Orientation) : Option Orientation :=
  match set_order with
  | [] => none
  | o :: os => some (pyMaxBy (fun x => orientations.count x) o os)

/-- `set_order` is a faithful enumeration of `set(orientations)`:
duplicate-free and containing exactly the members of the list. -/
abbrev validSetOrder (orientations set_order : List Orientation) : Prop :=
  set_order.Nodup ∧ ∀ o : Orientation, o ∈ set_order ↔ o ∈ orientations

/-- Banker's rounding (round half to even), as Python's builtin `round`. -/
def roundHalfEven (q : ℚ) : ℤ :=
  let f := ⌊q⌋
  if q - f < 1 / 2 then f
  else if q - f > 1 / 2 then f + 1
  else if f % 2 = 0 then f else f + 1

/-- Python `round(x, 1)`. -/
def pyRound1 (q : ℚ) : ℚ :=
  (roundHalfEven (q * 10) : ℚ) / 10

/-- `analyze_patient_folder` (ranker.py lines 433-473).  Each element of
`files` is the outcome of `analyze_dicom_file` on one DICOM file:
`none` for an error record, `some r` for a valid result.  An empty
folder errors with "No DICOM files found"; a folder whose files all
errored with "No valid DICOM files processed".  Otherwise the summary
takes the first maximal-score file as best, the set-order-dependent most
common orientation, and the mean score rounded to one decimal. -/
def analyze_patient_folder (files : List (Option FileResult))
    (set_order : List Orientation) : Except FolderError FolderSummary :=
  if files.isEmpty then Except.error FolderError.no_dicom_files
  else
    match files.filterMap id with
    | [] => Except.error FolderError.no_valid_dicoms
    | r :: rs =>
      let best_result := pyMaxBy (fun x => x.composite_score) r rs
      let orientations := (r :: rs).map fun x => x.fetal_orientation
      Except.ok
        { best := best_result
          most_common := most_common_orientation orientations set_order
          avg_score := pyRound1 (listMean ((r :: rs).map fun x => (x.composite_score : ℚ))) }

/-- One case folder as seen by the batch driver: its name, the per-file
analysis outcomes, and the (unspecified) iteration order of the
orientation set used by the summary. -/
structure FolderInput where
  name : List Char
  files : List (Option FileResult)
  set_order : List Orientation
  deriving DecidableEq, Repr

/-- A rename decided by the driver (attempted on the filesystem only
when `dry_run` is false; the decision itself is what is modeled). -/
structure RenameAction where
  old_name : List Char
  new_name : List Char
  deriving DecidableEq, Repr

/-- One row of the CSV report written by the driver (one per folder kept
in `results`). -/
structure ReportRow where
  folder_name : List Char
  best_score : ℤ
  best_quality_class : Quality
  fetal_orientation : Orientation
  orientation_confidence : ℚ
  most_common_fetal_orientation : Option Orientation
  avg_score : ℚ
  deriving DecidableEq, Repr

/-- The per-folder body of the driver loop (ranker.py lines 496-552):
folders whose analysis errors are skipped (`continue`); otherwise the
new name is built from the best file's score, class, orientation and
confidence, a rename is decided, and a report row is appended. -/
def process_folder (f : FolderInput) : Option (RenameAction × ReportRow) :=
  match analyze_patient_folder f.files f.set_order with
  | Except.error _ => none
  | Except.ok s =>
    let nn := new_folder_name s.best.composite_score s.best.quality_class
      s.best.fetal_orientation s.best.orientation_confidence
      (clean_existing_marks f.name)
    some (⟨f.name, nn⟩,
      ⟨f.name, s.best.composite_score, s.best.quality_class,
        s.best.fetal_orientation, s.best.orientation_confidence,
        s.most_common, s.avg_score⟩)

/-- `rename_folders_with_scores_and_orientation` (ranker.py lines
475-582) restricted to its decisions: the renames it performs and the
rows of the CSV report it writes. -/
def rename_folders_with_scores_and_orientation (folders : List FolderInput) :
    List RenameAction × List ReportRow :=
  ((folders.filterMap process_folder).map Prod.fst,
   (folders.filterMap process_folder).map Prod.snd)

/-- The glob pattern `t2w_GA*_tissue.nii.gz` of ants_register.py line
28: a fixed leading part, an arbitrary (possibly empty) middle, and a
fixed trailing part. -/
def matches_atlas_glob (name : List Char) : Bool :=
  leadsWith ("t2w_GA".toList) name
    && trailsWith ("_tissue.nii.gz".toList) name
    && decide (("t2w_GA".toList).length + ("_tissue.nii.gz".toList).length ≤ name.length)

/-- Errors raised by ants_register.py lines 35-38; both are
`FileNotFoundError` in the source, with the messages "No atlas file
found (t2w_GA##_tissue.nii.gz)" and "srr_deconv.nii.gz not found". -/
inductive RegError
  | atlas_not_found
  | moving_not_found
  deriving DecidableEq, Repr

/-- Registration-library operations the script performs, in order. -/
inductive RegOp
  | register (fixed moving : List Char)
  | apply_transform (mask : List Char)
  deriving DecidableEq, Repr

/-- The fixed moving-volume path of ants_register.py line 29. -/
def moving_vol_name : List Char :=
  "FX27-s1_extracted.nii.gz".toList

/-- ants_register.py lines 28-75: identify the atlas by glob, filter the
mask list, check both preconditions (raising before any registration
work), then register the moving volume and resample every mask.
`files` is the directory listing restricted to `*.nii.gz` (both globs in
the source carry that suffix); `moving_exists` models
`os.path.exists(moving_vol)`.  A returned `Except.error` corresponds to
an uncaught `FileNotFoundError` that aborts the run with no `RegOp`
performed. -/
def register_subject (files : List (List Char)) (moving_exists : Bool) :
    Except RegError (List RegOp) :=
  let atlas := files.filter fun f => matches_atlas_glob f
  let mask_files := files.filter fun f =>
    !containsL ("t2w_GA".toList) f && !containsL ("srr_deconv".toList) f
  match atlas with
  | [] => Except.error RegError.atlas_not_found
  | a :: _ =>
    if !moving_exists then Except.error RegError.moving_not_found
    else Except.ok (RegOp.register a moving_vol_name ::
      mask_files.map RegOp.apply_transform)

/-- Follows the spec's words, for comparison with the code: the
most-common orientation with ties broken by encounter order, i.e. the
first-encountered orientation among those of maximal count. -/
def encounterDistinct (l : List Orientation) : List Orientation :=
  l.foldl (fun acc o => if o ∈ acc then acc else acc ++ [o]) []

/-- Follows the spec's words (tie-break by encounter order); compare
with `most_common_orientation`, which uses the set iteration order. -/
def most_common_by_encounter (orientations : List Orientation) : Option Orientation :=
  match encounterDistinct orientations with
  | [] => none
  | o :: os => some (pyMaxBy (fun x => orientations.count x) o os)

/-- A rectangular grid all of whose cells hold the same value `c`. -/
def allCells (c : ℚ) (img : List (List ℚ)) : Prop :=
  ∀ row ∈ img, ∀ x ∈ row, x = c

lemma pyInt_nonneg {q : ℚ} (h : 0 ≤ q) : 0 ≤ pyInt q := by
  rw [pyInt, if_pos h]
  exact Int.floor_nonneg.mpr h

lemma pyInt_min100_le (q : ℚ) : pyInt (min q 100) ≤ 100 := by
  rcases le_or_lt 0 (min q 100) with h | h
  · rw [pyInt, if_pos h]
    have h2 : ⌊min q 100⌋ ≤ ⌊(100 : ℚ)⌋ := Int.floor_le_floor (min_le_right q 100)
    simpa using h2
  · rw [pyInt, if_neg (not_le.mpr h)]
    have h2 : (0 : ℤ) ≤ ⌊-min q 100⌋ := Int.floor_nonneg.mpr (by linarith)
    omega

lemma pyInt_min100_nonneg {q : ℚ} (h : 0 ≤ q) : 0 ≤ pyInt (min q 100) :=
  pyInt_nonneg (le_min h (by norm_num))

lemma listSum_const {xs : List ℚ} {c : ℚ} (h : ∀ x ∈ xs, x = c) :
    xs.sum = xs.length * c := by
  induction xs with
  | nil => simp
  | cons y ys ih =>
    have hy : y = c := h y (List.mem_cons_self y ys)
    have hys : ys.sum = ys.length * c := ih fun x hx => h x (List.mem_cons_of_mem y hx)
    simp [hy, hys]
    ring

lemma listMean_const {xs : List ℚ} {c : ℚ} (h : ∀ x ∈ xs, x = c) (hne : xs ≠ []) :
    listMean xs = c := by
  rw [listMean, listSum_const h]
  have hl : (xs.length : ℚ) ≠ 0 := by
    have h0 : xs.length ≠ 0 := fun h0 => hne (List.length_eq_zero.mp h0)
    exact_mod_cast h0
  field_simp

lemma listMean_zero {xs : List ℚ} (h : ∀ x ∈ xs, x = 0) : listMean xs = 0 := by
  rw [listMean, listSum_const h]
  simp

lemma listVarP_const {xs : List ℚ} {c : ℚ} (h : ∀ x ∈ xs, x = c) :
    listVarP xs = 0 := by
  rcases eq_or_ne xs [] with rfl | hne
  · simp [listVarP, listMean]
  · rw [listVarP]
    apply listMean_zero
    intro y hy
    rcases List.mem_map.mp hy with ⟨x, hx, rfl⟩
    rw [h x hx, listMean_const h hne]
    ring

lemma pearson_none_left {sq : ℚ → ℚ} {xs ys : List ℚ} {c : ℚ}
    (h : ∀ x ∈ xs, x = c) : pearson sq xs ys = none := by
  rw [pearson, if_pos (Or.inl (listVarP_const h))]

lemma allCells_flatten {c : ℚ} {img : List (List ℚ)} (h : allCells c img) :
    ∀ x ∈ img.flatten, x = c := by
  intro x hx
  rcases List.mem_flatten.mp hx with ⟨row, hrow, hxr⟩
  exact h row hrow x hxr

lemma allCells_takeCols {c : ℚ} {img : List (List ℚ)} {n : ℕ} (h : allCells c img) :
    allCells c (takeCols n img) := by
  intro row hrow x hx
  rcases List.mem_map.mp hrow with ⟨row0, hrow0, rfl⟩
  exact h row0 hrow0 x (List.take_subset n row0 hx)

lemma allCells_dropCols {c : ℚ} {img : List (List ℚ)} {n : ℕ} (h : allCells c img) :
    allCells c (dropCols n img) := by
  intro row hrow x hx
  rcases List.mem_map.mp hrow with ⟨row0, hrow0, rfl⟩
  exact h row0 hrow0 x (List.drop_subset n row0 hx)

lemma allCells_flipCols {c : ℚ} {img : List (List ℚ)} (h : allCells c img) :
    allCells c (flipCols img) := by
  intro row hrow x hx
  rcases List.mem_map.mp hrow with ⟨row0, hrow0, rfl⟩
  exact h row0 hrow0 x (List.mem_reverse.mp hx)

lemma allCells_take {c : ℚ} {img : List (List ℚ)} {n : ℕ} (h : allCells c img) :
    allCells c (img.take n) :=
  fun row hrow => h row (List.take_subset n img hrow)

lemma allCells_drop {c : ℚ} {img : List (List ℚ)} {n : ℕ} (h : allCells c img) :
    allCells c (img.drop n) :=
  fun row hrow => h row (List.drop_subset n img hrow)

lemma allCells_reverse {c : ℚ} {img : List (List ℚ)} (h : allCells c img) :
    allCells c img.reverse :=
  fun row hrow => h row (List.mem_reverse.mp hrow)

lemma splitOnceChar_append {sep : Char} {A B : List Char} (h : sep ∉ A) :
    splitOnceChar sep (A ++ sep :: B) = some (A, B) := by
  induction A with
  | nil => simp [splitOnceChar]
  | cons a as ih =>
    have ha : a ≠ sep := fun hc => h (hc ▸ List.mem_cons_self a as)
    have has : sep ∉ as := fun hc => h (List.mem_cons_of_mem a hc)
    simp [splitOnceChar, ha, ih has]

lemma pySplit2_three {P Q : List Char} (R : List Char)
    (hP : '_' ∉ P) (hQ : '_' ∉ Q) :
    pySplit2 '_' (P ++ '_' :: (Q ++ '_' :: R)) = [P, Q, R] := by
  simp [pySplit2, splitOnceChar_append hP, splitOnceChar_append hQ]

lemma digitsRevAux_lt {fuel n : ℕ} : ∀ d ∈ digitsRevAux fuel n, d < 10 := by
  induction fuel generalizing n with
  | zero => simp [digitsRevAux]
  | succ k ih =>
    intro d hd
    rw [digitsRevAux] at hd
    by_cases hn : n = 0
    · simp [hn] at hd
    · rw [if_neg hn] at hd
      rcases List.mem_cons.mp hd with rfl | h2
      · exact Nat.mod_lt n (by norm_num)
      · exact ih d h2

lemma digitChar_isDigit : ∀ d < 10, (Nat.digitChar d).isDigit = true := by
  decide

lemma pad2_all_digit (n : ℕ) : ∀ c ∈ pad2 n, c.isDigit = true := by
  intro c hc
  have hd : ∀ c ∈ digitsOf n, c.isDigit = true := by
    intro c hc
    rw [digitsOf, List.mem_reverse] at hc
    rcases List.mem_map.mp hc with ⟨d, hd, rfl⟩
    exact digitChar_isDigit d (digitsRevAux_lt d hd)
  rw [pad2] at hc
  split at hc
  · rcases List.mem_append.mp hc with h | h
    · rw [List.eq_of_mem_replicate h]
      decide
    · exact hd c h
  · exact hd c hc

lemma pad2_length (n : ℕ) : 2 ≤ (pad2 n).length := by
  rw [pad2]
  split
  · rename_i h
    simp only [List.length_append, List.length_replicate]
    omega
  · rename_i h
    omega

lemma isdigitL_pad2 (n : ℕ) : isdigitL (pad2 n) = true := by
  have hlen := pad2_length n
  rw [isdigitL, Bool.and_eq_true]
  constructor
  · rcases h : pad2 n with _ | ⟨c, cs⟩
    · rw [h] at hlen
      simp at hlen
    · simp
  · rw [List.all_eq_true]
    exact pad2_all_digit n

lemma pad2_not_underscore (n : ℕ) : '_' ∉ pad2 n := by
  intro h
  have := pad2_all_digit n '_' h
  simp [Char.isDigit] at this

lemma qualityChars_not_underscore (q : Quality) : '_' ∉ qualityChars q := by
  cases q <;> decide

lemma isdigitL_formatInt02 {z : ℤ} (h : 0 ≤ z) : isdigitL (formatInt02 z) = true := by
  rw [formatInt02, if_pos h]
  exact isdigitL_pad2 _

lemma formatInt02_not_underscore {z : ℤ} (h : 0 ≤ z) : '_' ∉ formatInt02 z := by
  rw [formatInt02, if_pos h]
  exact pad2_not_underscore _

lemma pyMaxBy_cons {α β : Type} [LinearOrder β] (key : α → β) (x y : α) (ys : List α) :
    pyMaxBy key x (y :: ys) = pyMaxBy key (if key x < key y then y else x) ys := rfl

lemma pyMaxBy_mem {α β : Type} [LinearOrder β] (key : α → β) (x : α) (xs : List α) :
    pyMaxBy key x xs ∈ x :: xs := by
  induction xs generalizing x with
  | nil => simp [pyMaxBy]
  | cons y ys ih =>
    rw [pyMaxBy_cons]
    have h := ih (if key x < key y then y else x)
    rcases List.mem_cons.mp h with h1 | h1
    · rw [h1]
      split <;> simp
    · exact List.mem_cons_of_mem x (List.mem_cons_of_mem y h1)

lemma pyMaxBy_key_le {α β : Type} [LinearOrder β] (key : α → β) (x : α) (xs : List α) :
    ∀ z ∈ x :: xs, key z ≤ key (pyMaxBy key x xs) := by
  induction xs generalizing x with
  | nil =>
    intro z hz
    rcases List.mem_singleton.mp hz with rfl
    simp [pyMaxBy]
  | cons y ys ih =>
    intro z hz
    rw [pyMaxBy_cons]
    have hhead : key x ≤ key (if key x < key y then y else x) := by
      by_cases hxy : key x < key y
      · rw [if_pos hxy]
        exact le_of_lt hxy
      · rw [if_neg hxy]
    have hhead' : key y ≤ key (if key x < key y then y else x) := by
      by_cases hxy : key x < key y
      · rw [if_pos hxy]
      · rw [if_neg hxy]
        exact le_of_not_lt hxy
    have hrec := ih (if key x < key y then y else x)
    rcases List.mem_cons.mp hz with rfl | hz1
    · exact le_trans hhead (hrec _ (List.mem_cons_self _ _))
    · rcases List.mem_cons.mp hz1 with rfl | hz2
      · exact le_trans hhead' (hrec _ (List.mem_cons_self _ _))
      · exact hrec z (List.mem_cons_of_mem _ hz2)

lemma pyMaxBy_unique {α β : Type} [LinearOrder β] (key : α → β) (x : α) (xs : List α)
    (m : α) (hm : m ∈ x :: xs)
    (hmax : ∀ z ∈ x :: xs, z ≠ m → key z < key m) :
    pyMaxBy key x xs = m := by
  by_contra hne
  have h1 : key (pyMaxBy key x xs) < key m := hmax _ (pyMaxBy_mem key x xs) hne
  have h2 : key m ≤ key (pyMaxBy key x xs) := pyMaxBy_key_le key x xs m hm
  exact absurd h2 (not_le.mpr h1)

/-- C7: for every integer score and orientation, the quality class is
EXCELLENT iff the score reaches the orientation's excellent cutoff, else
GOOD iff it reaches the good cutoff, else FAIR iff it reaches the fair
cutoff, else POOR; and the cutoffs are the table rows
axial 75/60/40, sagittal 70/55/35, coronal 72/58/38, unknown 65/50/30. -/
theorem get_quality_class_table_spec :
    (∀ (s : ℤ) (o : Orientation),
      ((get_quality_class s o = Quality.EXCELLENT) ↔ (quality_thresholds o).excellent ≤ s)
      ∧ ((get_quality_class s o = Quality.GOOD) ↔
          s < (quality_thresholds o).excellent ∧ (quality_thresholds o).good ≤ s)
      ∧ ((get_quality_class s o = Quality.FAIR) ↔
          s < (quality_thresholds o).good ∧ (quality_thresholds o).fair ≤ s)
      ∧ ((get_quality_class s o = Quality.POOR) ↔ s < (quality_thresholds o).fair))
    ∧ quality_thresholds Orientation.axial = ⟨75, 60, 40, 0.3, 0.25, 0.2⟩
    ∧ quality_thresholds Orientation.sagittal = ⟨70, 55, 35, 0.35, 0.2, 0.15⟩
    ∧ quality_thresholds Orientation.coronal = ⟨72, 58, 38, 0.25, 0.3, 0.25⟩
    ∧ quality_thresholds Orientation.unknown = ⟨65, 50, 30, 0.4, 0.3, 0.1⟩ := by
  refine ⟨?_, rfl, rfl, rfl, rfl⟩
  intro s o
  have hgf : (quality_thresholds o).fair ≤ (quality_thresholds o).good := by
    cases o <;> decide
  have heg : (quality_thresholds o).good ≤ (quality_thresholds o).excellent := by
    cases o <;> decide
  rw [get_quality_class]
  split_ifs with h1 h2 h3 <;>
    refine ⟨?_, ?_, ?_, ?_⟩ <;> simp_all <;> omega

/-- C9: in ants_register.py, when no file matches the atlas glob or the
subject moving volume does not exist, the script raises
`FileNotFoundError` before any registration work: the run result is an
error carrying no registration operation. -/
theorem register_subject_aborts (files : List (List Char)) (moving_exists : Bool)
    (h : files.filter (fun f => matches_atlas_glob f) = [] ∨ moving_exists = false) :
    ∃ e, register_subject files moving_exists = Except.error e := by
  rw [register_subject]
  rcases hA : files.filter (fun f => matches_atlas_glob f) with _ | ⟨a, rest⟩
  · exact ⟨RegError.atlas_not_found, rfl⟩
  · rcases h with h | h
    · rw [hA] at h
      cases h
    · rw [h]
      exact ⟨RegError.moving_not_found, rfl⟩

/-- Witness for C9: with an empty directory listing and a missing
moving volume, the script errors out. -/
theorem register_subject_aborts_witness :
    ∃ e, register_subject [] false = Except.error e :=
  register_subject_aborts [] false (Or.inl rfl)

/-- C6: `determine_fetal_orientation` is a deterministic function of the
five features the scoring rules read; two feature sets agreeing on
horizontal symmetry, vertical symmetry, aspect ratio, dominant line
angle and intensity std yield the same orientation and confidence. -/
theorem determine_fetal_orientation_deterministic (f g : FeatureSet)
    (h1 : f.horizontal_symmetry = g.horizontal_symmetry)
    (h2 : f.vertical_symmetry = g.vertical_symmetry)
    (h3 : f.aspect_ratio = g.aspect_ratio)
    (h4 : f.dominant_line_angle = g.dominant_line_angle)
    (h5 : f.intensity_std = g.intensity_std) :
    (determine_fetal_orientation (some f)).1 = (determine_fetal_orientation (some g)).1
    ∧ (determine_fetal_orientation (some f)).2.1
        = (determine_fetal_orientation (some g)).2.1 := by
  have ha : axialScore f = axialScore g := by
    simp only [axialScore, h1, h3, h5]
  have hs : sagittalScore f = sagittalScore g := by
    simp only [sagittalScore, h2, h3, h4]
  have hc : coronalScore f = coronalScore g := by
    simp only [coronalScore, h2, h3, h1]
  constructor <;> simp only [determine_fetal_orientation, ha, hs, hc]

/-- Witness for C6: two feature sets differing only in `line_count` and
`intensity_skewness` (features the classifier never reads) classify
identically. -/
theorem determine_fetal_orientation_deterministic_witness :
    (determine_fetal_orientation (some ⟨1, 0, 1, 90, 5, 30, 0⟩)).1
        = (determine_fetal_orientation (some ⟨1, 0, 1, 90, 7, 30, 2⟩)).1
    ∧ (determine_fetal_orientation (some ⟨1, 0, 1, 90, 5, 30, 0⟩)).2.1
        = (determine_fetal_orientation (some ⟨1, 0, 1, 90, 7, 30, 2⟩)).2.1 :=
  determine_fetal_orientation_deterministic _ _ rfl rfl rfl rfl rfl

/-- C4: orientation classification computes the three additive scores
(`axialScore`, `sagittalScore`, `coronalScore`, translated literally
from ranker.py lines 179-201), picks the argmax with ties broken by the
fixed priority axial over sagittal over coronal, returns confidence
`min (best / 5) 1`, and returns `(unknown, 0, {})` when brain-region
extraction failed. -/
theorem determine_fetal_orientation_spec :
    determine_fetal_orientation none = (Orientation.unknown, 0, none)
    ∧ ∀ f : FeatureSet,
      ((determine_fetal_orientation (some f)).1 = Orientation.axial ↔
        sagittalScore f ≤ axialScore f ∧ coronalScore f ≤ axialScore f)
      ∧ ((determine_fetal_orientation (some f)).1 = Orientation.sagittal ↔
        axialScore f < sagittalScore f ∧ coronalScore f ≤ sagittalScore f)
      ∧ ((determine_fetal_orientation (some f)).1 = Orientation.coronal ↔
        axialScore f < coronalScore f ∧ sagittalScore f < coronalScore f)
      ∧ (determine_fetal_orientation (some f)).2.1
          = min (max (max (axialScore f) (sagittalScore f)) (coronalScore f) / 5) 1
      ∧ (determine_fetal_orientation (some f)).2.2 = some f := by
  constructor
  · rfl
  · intro f
    by_cases h1 : axialScore f < sagittalScore f
    · by_cases h2 : sagittalScore f < coronalScore f
      · have e : determine_fetal_orientation (some f)
            = (Orientation.coronal, min (coronalScore f / 5) 1, some f) := by
          simp only [determine_fetal_orientation, if_pos h1, if_pos h2]
        rw [e, max_eq_right (le_of_lt h1), max_eq_right (le_of_lt h2)]
        refine ⟨?_, ?_, ?_, rfl, rfl⟩
        · exact iff_of_false (by simp) fun hx => absurd h1 (not_lt.mpr hx.1)
        · exact iff_of_false (by simp) fun hx => absurd h2 (not_lt.mpr hx.2)
        · exact iff_of_true rfl ⟨lt_trans h1 h2, h2⟩
      · have e : determine_fetal_orientation (some f)
            = (Orientation.sagittal, min (sagittalScore f / 5) 1, some f) := by
          simp only [determine_fetal_orientation, if_pos h1, if_neg h2]
        rw [e, max_eq_right (le_of_lt h1), max_eq_left (not_lt.mp h2)]
        refine ⟨?_, ?_, ?_, rfl, rfl⟩
        · exact iff_of_false (by simp) fun hx => absurd h1 (not_lt.mpr hx.1)
        · exact iff_of_true rfl ⟨h1, not_lt.mp h2⟩
        · exact iff_of_false (by simp) fun hx => absurd hx.2 h2
    · by_cases h2 : axialScore f < coronalScore f
      · have e : determine_fetal_orientation (some f)
            = (Orientation.coronal, min (coronalScore f / 5) 1, some f) := by
          simp only [determine_fetal_orientation, if_neg h1, if_pos h2]
        rw [e, max_eq_left (not_lt.mp h1), max_eq_right (le_of_lt h2)]
        refine ⟨?_, ?_, ?_, rfl, rfl⟩
        · exact iff_of_false (by simp) fun hx => absurd h2 (not_lt.mpr hx.2)
        · exact iff_of_false (by simp) fun hx => absurd hx.1 h1
        · exact iff_of_true rfl ⟨h2, lt_of_le_of_lt (not_lt.mp h1) h2⟩
      · have e : determine_fetal_orientation (some f)
            = (Orientation.axial, min (axialScore f / 5) 1, some f) := by
          simp only [determine_fetal_orientation, if_neg h1, if_neg h2]
        rw [e, max_eq_left (not_lt.mp h1), max_eq_left (not_lt.mp h2)]
        refine ⟨?_, ?_, ?_, rfl, rfl⟩
        · exact iff_of_true rfl ⟨not_lt.mp h1, not_lt.mp h2⟩
        · exact iff_of_false (by simp) fun hx => absurd hx.1 h1
        · exact iff_of_false (by simp) fun hx => absurd hx.1 h2

/-- C10: with orientation `unknown`, `calculate_composite_score` takes
none of the axial/sagittal/coronal bonus branches, so the result is
`int(min(base_score * 100, 100))` computed with the unknown row's
weights: blur 0.4, contrast 0.3, symmetry 0.1 (hence residual SNR
weight 1 - 0.4 - 0.3 - 0.1). -/
theorem composite_score_unknown_no_bonus (m : Metrics) :
    calculate_composite_score m Orientation.unknown
      = pyInt (min ((0.4 * min (m.sharpness_score / 150) 1
          + 0.3 * min (m.contrast / 60) 1
          + (1 - 0.4 - 0.3 - 0.1) * min (m.snr / 10) 1) * 100) 100) := by
  simp only [calculate_composite_score, quality_thresholds]
  norm_num

/-- C2 counterexample: the normalizations are clamped only from above,
so a metrics mapping carrying a negative value yields a negative score.
With all metrics 0 except `bilateral_symmetry = -1` (a value the
Pearson correlation can take), the axial branch returns -12, outside
[0, 100]. -/
theorem composite_score_negative_counterexample :
    calculate_composite_score ⟨0, 0, 0, -1, 0, 0, 0, 0, 0⟩ Orientation.axial = -12
    ∧ calculate_composite_score ⟨0, 0, 0, -1, 0, 0, 0, 0, 0⟩ Orientation.axial < 0 := by
  have h : calculate_composite_score ⟨0, 0, 0, -1, 0, 0, 0, 0, 0⟩ Orientation.axial = -12 := by
    simp only [calculate_composite_score, quality_thresholds]
    norm_num [pyInt]
  exact ⟨h, by rw [h]; norm_num⟩

/-- C2 amended: `calculate_composite_score` always returns an integer at
most 100; the three normalizations are clamped only from above, so the
lower bound 0 holds under the additional hypothesis that every metric
value is nonnegative. -/
theorem composite_score_bounds_amended :
    (∀ (m : Metrics) (o : Orientation), calculate_composite_score m o ≤ 100)
    ∧ ∀ (m : Metrics) (o : Orientation),
        0 ≤ m.sharpness_score → 0 ≤ m.contrast → 0 ≤ m.snr →
        0 ≤ m.bilateral_symmetry → 0 ≤ m.shape_regularity →
        0 ≤ m.midline_clarity → 0 ≤ m.ap_structures →
        0 ≤ m.bilateral_balance → 0 ≤ m.vertical_organization →
        0 ≤ calculate_composite_score m o ∧ calculate_composite_score m o ≤ 100 := by
  have hub : ∀ (m : Metrics) (o : Orientation), calculate_composite_score m o ≤ 100 := by
    intro m o
    simp only [calculate_composite_score]
    exact pyInt_min100_le _
  refine ⟨hub, ?_⟩
  intro m o h1 h2 h3 h4 h5 h6 h7 h8 h9
  refine ⟨?_, hub m o⟩
  have hsn : 0 ≤ min (m.sharpness_score / 150) 1 := le_min (by positivity) zero_le_one
  have hcn : 0 ≤ min (m.contrast / 60) 1 := le_min (by positivity) zero_le_one
  have hrn : 0 ≤ min (m.snr / 10) 1 := le_min (by positivity) zero_le_one
  have hap : 0 ≤ min m.ap_structures 1 := le_min h7 zero_le_one
  cases o <;>
    · simp only [calculate_composite_score, quality_thresholds]
      refine pyInt_min100_nonneg ?_
      nlinarith [hsn, hcn, hrn, hap, h4, h5, h6, h8, h9]

/-- Witness for the C2 amended theorem: at the all-zero metrics mapping
and unknown orientation the score lies in [0, 100]. -/
theorem composite_score_bounds_amended_witness :
    0 ≤ calculate_composite_score ⟨0, 0, 0, 0, 0, 0, 0, 0, 0⟩ Orientation.unknown
    ∧ calculate_composite_score ⟨0, 0, 0, 0, 0, 0, 0, 0, 0⟩ Orientation.unknown ≤ 100 :=
  composite_score_bounds_amended.2 ⟨0, 0, 0, 0, 0, 0, 0, 0, 0⟩ Orientation.unknown
    (le_refl 0) (le_refl 0) (le_refl 0) (le_refl 0) (le_refl 0)
    (le_refl 0) (le_refl 0) (le_refl 0) (le_refl 0)

/-- C1 counterexample: the folder name "patient" does not match the
3-field numeric pattern and carries no quality/orientation mark, yet
renaming it (score 70, GOOD, AXIAL, confidence 0.8) and then applying
the removal operation yields "AXIAL_C80_patient", not "patient": the
removal strips only the score and quality-class fields. -/
theorem rename_roundtrip_counterexample :
    matches3 ("patient".toList) = false
    ∧ clean_existing_marks ("patient".toList) = "patient".toList
    ∧ strip_score_quality
        (new_folder_name 70 Quality.GOOD Orientation.axial 0.8
          (clean_existing_marks ("patient".toList)))
        ≠ "patient".toList := by
  have hc : confidence_token 0.8 = ['C', '8', '0'] := by
    have h1 : (0.8 : ℚ) > 0.5 := by norm_num
    rw [confidence_token, if_pos h1]
    have h2 : pyInt (0.8 * 100) = 80 := by
      rw [pyInt, if_pos (by norm_num : (0 : ℚ) ≤ 0.8 * 100)]
      norm_num
    rw [h2]
    decide
  refine ⟨by decide, by decide, ?_⟩
  rw [new_folder_name, hc]
  decide

/-- C1 amended: renaming with a nonnegative score and then applying the
removal operation of rename.py yields the orientation field, the
confidence token and the original name still joined by underscores
(only the two leading fields are stripped), for every slotted-in
original name. -/
theorem rename_then_strip_amended (score : ℤ) (q : Quality) (o : Orientation)
    (conf : ℚ) (N : List Char) (h : 0 ≤ score) :
    strip_score_quality (new_folder_name score q o conf N)
      = orientationChars o ++ '_' :: (confidence_token conf ++ '_' :: N) := by
  have hsplit : pySplit2 '_' (new_folder_name score q o conf N)
      = [formatInt02 score, qualityChars q,
         orientationChars o ++ '_' :: (confidence_token conf ++ '_' :: N)] := by
    rw [new_folder_name]
    exact pySplit2_three _ (formatInt02_not_underscore h) (qualityChars_not_underscore q)
  rw [strip_score_quality, hsplit]
  simp only [isdigitL_formatInt02 h, if_true]

/-- Witness for the C1 amended theorem at score 70, GOOD, AXIAL,
confidence 0.8 and original name "scan1". -/
theorem rename_then_strip_amended_witness :
    strip_score_quality
        (new_folder_name 70 Quality.GOOD Orientation.axial 0.8 ("scan1".toList))
      = orientationChars Orientation.axial
          ++ '_' :: (confidence_token 0.8 ++ '_' :: "scan1".toList) :=
  rename_then_strip_amended 70 Quality.GOOD Orientation.axial 0.8 ("scan1".toList)
    (by decide)

lemma analyze_symmetry_const {sq : ℚ → ℚ} {region : List (List ℚ)} {c : ℚ}
    (h : allCells c region) : analyze_symmetry sq region = (0, 0) := by
  simp only [analyze_symmetry]
  rw [pearson_none_left (allCells_flatten (allCells_takeCols (allCells_takeCols h))),
    pearson_none_left (allCells_flatten (allCells_take (allCells_take h)))]
  rfl

/-- C5: on a brain region whose intensities are all equal (in particular
all-black or all-white), `calculate_skewness` returns 0 thanks to the
zero-std guard, and both symmetry correlations are NaN (zero-variance
halves) and are normalized to 0; neither function lets a NaN escape.
`sq` is the abstracted floating square root, of which only
`sq 0 = 0` is used. -/
theorem constant_region_no_nan (sq : ℚ → ℚ) (region : List (List ℚ)) (c : ℚ)
    (hsq : sq 0 = 0) (hconst : ∀ row ∈ region, ∀ x ∈ row, x = c) :
    calculate_skewness sq region = 0 ∧ analyze_symmetry sq region = (0, 0) := by
  constructor
  · have hv : listVarP region.flatten = 0 := listVarP_const (allCells_flatten hconst)
    simp only [calculate_skewness, hv, hsq, if_true]
  · exact analyze_symmetry_const hconst

/-- Witness for C5: a 2-by-2 region of constant intensity 5, with the
identity standing in for the square root (it maps 0 to 0). -/
theorem constant_region_no_nan_witness :
    calculate_skewness (fun x => x) [[5, 5], [5, 5]] = 0
    ∧ analyze_symmetry (fun x => x) [[5, 5], [5, 5]] = (0, 0) :=
  constant_region_no_nan (fun x => x) [[5, 5], [5, 5]] 5 rfl
    (by
      intro row hrow x hx
      simp only [List.mem_cons, List.not_mem_nil, or_false] at hrow
      rcases hrow with rfl | rfl <;>
        · simp only [List.mem_cons, List.not_mem_nil, or_false] at hx
          rcases hx with rfl | rfl <;> rfl)

/-- C3 counterexample: `max(set(orientations), key=orientations.count)`
breaks count ties by the set's iteration order, not by encounter order.
For the two-file folder with orientations [SAGITTAL, AXIAL] (a tie),
the set enumeration [AXIAL, SAGITTAL] is a valid iteration order of
`set(orientations)` and makes the code return AXIAL, while the claimed
encounter-order tie-break returns SAGITTAL. -/
theorem most_common_tie_counterexample :
    validSetOrder [Orientation.sagittal, Orientation.axial]
        [Orientation.axial, Orientation.sagittal]
    ∧ most_common_orientation [Orientation.sagittal, Orientation.axial]
        [Orientation.axial, Orientation.sagittal] = some Orientation.axial
    ∧ most_common_by_encounter [Orientation.sagittal, Orientation.axial]
        = some Orientation.sagittal
    ∧ some Orientation.axial ≠ some Orientation.sagittal := by
  decide

/-- C3 amended: the best file of a folder summary is the first file
attaining the maximal composite score; the most-common orientation is
an orientation of maximal occurrence count, with count ties resolved by
the unspecified set iteration order rather than by encounter order; and
on the example folder (scores 40, 40, 70 with orientations axial,
axial, sagittal) every valid set enumeration yields best score 70 with
the sagittal file's orientation, most common orientation AXIAL, and
average score 50.0. -/
theorem folder_summary_amended :
    (∀ (r : FileResult) (rs : List FileResult),
      pyMaxBy (fun x => x.composite_score) r rs ∈ r :: rs
      ∧ ∀ x ∈ r :: rs,
          x.composite_score ≤ (pyMaxBy (fun x => x.composite_score) r rs).composite_score)
    ∧ (∀ (orientations set_order : List Orientation) (m : Orientation),
        validSetOrder orientations set_order →
        most_common_orientation orientations set_order = some m →
        m ∈ orientations ∧ ∀ o ∈ orientations, orientations.count o ≤ orientations.count m)
    ∧ ∀ set_order : List Orientation,
        validSetOrder [Orientation.axial, Orientation.axial, Orientation.sagittal]
          set_order →
        analyze_patient_folder
          [some ⟨40, Quality.FAIR, Orientation.axial, 0.9⟩,
           some ⟨40, Quality.FAIR, Orientation.axial, 0.5⟩,
           some ⟨70, Quality.GOOD, Orientation.sagittal, 0.8⟩] set_order
        = Except.ok ⟨⟨70, Quality.GOOD, Orientation.sagittal, 0.8⟩,
            some Orientation.axial, 50⟩ := by
  refine ⟨?_, ?_, ?_⟩
  · intro r rs
    exact ⟨pyMaxBy_mem (fun x : FileResult => x.composite_score) r rs,
      pyMaxBy_key_le (fun x : FileResult => x.composite_score) r rs⟩
  · intro orientations set_order m hvalid hm
    rcases set_order with _ | ⟨o, os⟩
    · simp [most_common_orientation] at hm
    · rw [most_common_orientation] at hm
      have hmem : m ∈ o :: os := by
        rw [← Option.some_inj.mp hm]
        exact pyMaxBy_mem (fun x => orientations.count x) o os
      refine ⟨(hvalid.2 m).mp hmem, ?_⟩
      intro x hx
      rw [← Option.some_inj.mp hm]
      exact pyMaxBy_key_le (fun x => orientations.count x) o os x ((hvalid.2 x).mpr hx)
  · intro set_order hvalid
    rcases hso : set_order with _ | ⟨o, os⟩
    · exfalso
      have := (hvalid.2 Orientation.axial).mpr (by simp)
      rw [hso] at this
      cases this
    · rw [hso] at hvalid
      have hmc : most_common_orientation
          [Orientation.axial, Orientation.axial, Orientation.sagittal] (o :: os)
          = some Orientation.axial := by
        rw [most_common_orientation]
        congr 1
        apply pyMaxBy_unique
        · exact (hvalid.2 Orientation.axial).mpr (by simp)
        · intro z hz hzne
          have hz2 : z ∈ [Orientation.axial, Orientation.axial, Orientation.sagittal] :=
            (hvalid.2 z).mp hz
          have hz3 : z = Orientation.sagittal := by
            simp only [List.mem_cons, List.not_mem_nil, or_false] at hz2
            rcases hz2 with rfl | rfl | rfl
            · exact absurd rfl hzne
            · exact absurd rfl hzne
            · rfl
          rw [hz3]
          decide
      rw [analyze_patient_folder]
      simp only [List.isEmpty_cons, List.filterMap_cons, id, List.filterMap_nil]
      rw [if_neg (by simp)]
      have havg : pyRound1 (listMean [((40 : ℤ) : ℚ), ((40 : ℤ) : ℚ), ((70 : ℤ) : ℚ)])
          = 50 := by
        have hm0 : listMean [((40 : ℤ) : ℚ), ((40 : ℤ) : ℚ), ((70 : ℤ) : ℚ)] = 50 := by
          rw [listMean]
          norm_num
        rw [hm0, pyRound1, roundHalfEven]
        norm_num
      have hbest : pyMaxBy (fun x : FileResult => x.composite_score)
          ⟨40, Quality.FAIR, Orientation.axial, 0.9⟩
          [⟨40, Quality.FAIR, Orientation.axial, 0.5⟩,
           ⟨70, Quality.GOOD, Orientation.sagittal, 0.8⟩]
          = ⟨70, Quality.GOOD, Orientation.sagittal, 0.8⟩ := by
        rw [pyMaxBy, List.foldl_cons, List.foldl_cons, List.foldl_nil]
        norm_num
      simp only [List.map_cons, List.map_nil]
      rw [hbest, hmc, havg]

/-- Witness for the C3 amended theorem: the example folder evaluated at
the concrete set enumeration [AXIAL, SAGITTAL]. -/
theorem folder_summary_amended_witness :
    analyze_patient_folder
        [some ⟨40, Quality.FAIR, Orientation.axial, 0.9⟩,
         some ⟨40, Quality.FAIR, Orientation.axial, 0.5⟩,
         some ⟨70, Quality.GOOD, Orientation.sagittal, 0.8⟩]
        [Orientation.axial, Orientation.sagittal]
      = Except.ok ⟨⟨70, Quality.GOOD, Orientation.sagittal, 0.8⟩,
          some Orientation.axial, 50⟩ :=
  folder_summary_amended.2.2 [Orientation.axial, Orientation.sagittal] (by decide)

lemma analyze_patient_folder_error_iff (files : List (Option FileResult))
    (set_order : List Orientation) :
    (∃ e, analyze_patient_folder files set_order = Except.error e)
      ↔ files.filterMap id = [] := by
  rw [analyze_patient_folder]
  rcases files with _ | ⟨f, fs⟩
  · simp
  · rw [if_neg (by simp)]
    rcases hF : (f :: fs).filterMap id with _ | ⟨r, rs⟩
    · simp
    · simp

lemma process_folder_eq_none_iff (f : FolderInput) :
    process_folder f = none ↔ f.files.filterMap id = [] := by
  rw [process_folder]
  constructor
  · intro h
    rcases hA : analyze_patient_folder f.files f.set_order with e | s
    · exact (analyze_patient_folder_error_iff f.files f.set_order).mp ⟨e, hA⟩
    · rw [hA] at h
      cases h
  · intro h
    rcases (analyze_patient_folder_error_iff f.files f.set_order).mpr h with ⟨e, hA⟩
    rw [hA]

lemma process_folder_some_names (f : FolderInput) (p : RenameAction × ReportRow)
    (h : process_folder f = some p) :
    p.1.old_name = f.name ∧ p.2.folder_name = f.name := by
  rw [process_folder] at h
  rcases hA : analyze_patient_folder f.files f.set_order with e | s
  · rw [hA] at h
    cases h
  · rw [hA] at h
    simp only [Option.some_inj] at h
    rw [← h]
    exact ⟨rfl, rfl⟩

/-- C8: a folder with zero readable (successfully scored) DICOM files
makes `analyze_patient_folder` return an error result; the batch driver
skips such folders, so every rename decision and every CSV row stems
from a folder with at least one valid file, and every folder with at
least one valid file does get its row in the report. -/
theorem zero_valid_folder_skipped :
    (∀ (files : List (Option FileResult)) (set_order : List Orientation),
      (∃ e, analyze_patient_folder files set_order = Except.error e)
        ↔ files.filterMap id = [])
    ∧ (∀ (folders : List FolderInput) (act : RenameAction),
        act ∈ (rename_folders_with_scores_and_orientation folders).1 →
        ∃ f ∈ folders, f.files.filterMap id ≠ [] ∧ act.old_name = f.name)
    ∧ (∀ (folders : List FolderInput) (row : ReportRow),
        row ∈ (rename_folders_with_scores_and_orientation folders).2 →
        ∃ f ∈ folders, f.files.filterMap id ≠ [] ∧ row.folder_name = f.name)
    ∧ ∀ (folders : List FolderInput) (f : FolderInput),
        f ∈ folders → f.files.filterMap id ≠ [] →
        ∃ row ∈ (rename_folders_with_scores_and_orientation folders).2,
          row.folder_name = f.name := by
  refine ⟨analyze_patient_folder_error_iff, ?_, ?_, ?_⟩
  · intro folders act hact
    rw [rename_folders_with_scores_and_orientation] at hact
    rcases List.mem_map.mp hact with ⟨p, hp, hfst⟩
    rcases List.mem_filterMap.mp hp with ⟨f, hf, hpf⟩
    refine ⟨f, hf, ?_, ?_⟩
    · intro hempty
      rw [(process_folder_eq_none_iff f).mpr hempty] at hpf
      cases hpf
    · rw [← hfst]
      exact (process_folder_some_names f p hpf).1
  · intro folders row hrow
    rw [rename_folders_with_scores_and_orientation] at hrow
    rcases List.mem_map.mp hrow with ⟨p, hp, hsnd⟩
    rcases List.mem_filterMap.mp hp with ⟨f, hf, hpf⟩
    refine ⟨f, hf, ?_, ?_⟩
    · intro hempty
      rw [(process_folder_eq_none_iff f).mpr hempty] at hpf
      cases hpf
    · rw [← hsnd]
      exact (process_folder_some_names f p hpf).2
  · intro folders f hf hne
    rcases hP : process_folder f with _ | ⟨p⟩
    · exact absurd ((process_folder_eq_none_iff f).mp hP) hne
    · refine ⟨p.2, ?_, (process_folder_some_names f p hP).2⟩
      rw [rename_folders_with_scores_and_orientation]
      exact List.mem_map.mpr ⟨p, List.mem_filterMap.mpr ⟨f, hf, hP⟩, rfl⟩

/-- Witness for C8: a single folder holding one valid file produces a
report row carrying that folder's name. -/
theorem zero_valid_folder_skipped_witness :
    ∃ row ∈ (rename_folders_with_scores_and_orientation
        [⟨"case1".toList, [some ⟨40, Quality.FAIR, Orientation.axial, 0.9⟩],
          [Orientation.axial]⟩]).2,
      row.folder_name = "case1".toList :=
  zero_valid_folder_skipped.2.2.2
    [⟨"case1".toList, [some ⟨40, Quality.FAIR, Orientation.axial, 0.9⟩],
      [Orientation.axial]⟩]
    ⟨"case1".toList, [some ⟨40, Quality.FAIR, Orientation.axial, 0.9⟩],
      [Orientation.axial]⟩
    (by simp) (by simp)

end SGBC
